import Mathlib

/-!
Shallow embedding of the extraction / merge core of the embedded.io scripts
(src/script/recruitments.py, events.py, facebook_posts.py, news.py,
companies.py, roles_and_badges.py).  Text is modelled as `List Char`;
Python dicts (JSON records) as association lists `List (String × Value)`
kept in insertion order; `re.search` for the concrete patterns used by the
scripts is implemented directly with their leftmost-match / greedy /
backtracking semantics.
-/

/-- JSON-like values as produced by the scripts. -/
inductive Value where
  | vnull : Value
  | vstr : String → Value
  | varr : List Value → Value
  | vobj : List (String × Value) → Value

mutual

/-- Decidable equality on values (structural, as Python `==` on JSON data). -/
def Value.deq : (a b : Value) → Decidable (a = b)
  | .vnull, .vnull => isTrue rfl
  | .vnull, .vstr _ => isFalse (by intro h; cases h)
  | .vnull, .varr _ => isFalse (by intro h; cases h)
  | .vnull, .vobj _ => isFalse (by intro h; cases h)
  | .vstr _, .vnull => isFalse (by intro h; cases h)
  | .vstr a, .vstr b =>
    match String.decEq a b with
    | isTrue h => isTrue (by rw [h])
    | isFalse h => isFalse (fun hh => h (Value.vstr.inj hh))
  | .vstr _, .varr _ => isFalse (by intro h; cases h)
  | .vstr _, .vobj _ => isFalse (by intro h; cases h)
  | .varr _, .vnull => isFalse (by intro h; cases h)
  | .varr _, .vstr _ => isFalse (by intro h; cases h)
  | .varr a, .varr b =>
    match Value.deqArr a b with
    | isTrue h => isTrue (by rw [h])
    | isFalse h => isFalse (fun hh => h (Value.varr.inj hh))
  | .varr _, .vobj _ => isFalse (by intro h; cases h)
  | .vobj _, .vnull => isFalse (by intro h; cases h)
  | .vobj _, .vstr _ => isFalse (by intro h; cases h)
  | .vobj _, .varr _ => isFalse (by intro h; cases h)
  | .vobj a, .vobj b =>
    match Value.deqObj a b with
    | isTrue h => isTrue (by rw [h])
    | isFalse h => isFalse (fun hh => h (Value.vobj.inj hh))

/-- Decidable equality on arrays of values. -/
def Value.deqArr : (a b : List Value) → Decidable (a = b)
  | [], [] => isTrue rfl
  | [], _ :: _ => isFalse (by intro h; cases h)
  | _ :: _, [] => isFalse (by intro h; cases h)
  | x :: xs, y :: ys =>
    match Value.deq x y with
    | isFalse h1 => isFalse (fun hh => h1 (List.cons.inj hh).1)
    | isTrue h1 =>
      match Value.deqArr xs ys with
      | isTrue h2 => isTrue (by rw [h1, h2])
      | isFalse h2 => isFalse (fun hh => h2 (List.cons.inj hh).2)

/-- Decidable equality on objects (key / value lists). -/
def Value.deqObj : (a b : List (String × Value)) → Decidable (a = b)
  | [], [] => isTrue rfl
  | [], _ :: _ => isFalse (by intro h; cases h)
  | _ :: _, [] => isFalse (by intro h; cases h)
  | (k1, v1) :: xs, (k2, v2) :: ys =>
    match String.decEq k1 k2 with
    | isFalse h1 =>
      isFalse (fun hh => h1 (congrArg Prod.fst (List.cons.inj hh).1))
    | isTrue h1 =>
      match Value.deq v1 v2 with
      | isFalse h2 =>
        isFalse (fun hh => h2 (congrArg Prod.snd (List.cons.inj hh).1))
      | isTrue h2 =>
        match Value.deqObj xs ys with
        | isTrue h3 => isTrue (by rw [h1, h2, h3])
        | isFalse h3 => isFalse (fun hh => h3 (List.cons.inj hh).2)

end

instance : DecidableEq Value := Value.deq

/-- Python truthiness (`if not data["logo"]`) for the values that occur. -/
def Value.isFalsy : Value → Bool
  | .vnull => true
  | .vstr s => s = ""
  | .varr l => l.isEmpty
  | .vobj l => l.isEmpty

/-- Python dict lookup `d.get(k)` on an insertion-ordered association list. -/
def lookupA (k : String) : List (String × Value) → Option Value
  | [] => none
  | (k', v) :: rest => if k' = k then some v else lookupA k rest

/-- Python dict assignment `d[k] = v` when the key may already be present:
the first binding of `k` is overwritten in place, otherwise `k` is appended. -/
def setKey (k : String) (v : Value) : List (String × Value) → List (String × Value)
  | [] => [(k, v)]
  | (k', v') :: rest => if k' = k then (k, v) :: rest else (k', v') :: setKey k v rest

/-- Remove every binding of key `k` (a Python dict has at most one). -/
def eraseKey (k : String) : List (String × Value) → List (String × Value)
  | [] => []
  | (k', v') :: rest => if k' = k then eraseKey k rest else (k', v') :: eraseKey k rest

/-- Python `\s` on the ASCII range (the scripts strip non-ASCII first or
receive ASCII label text). -/
def isWS (c : Char) : Bool :=
  c = ' ' || c = '\t' || c = '\n' || c = '\r' || c = '\x0b' || c = '\x0c'

/-- Character class of `.` in a pattern without DOTALL: anything but a newline. -/
def notNL (c : Char) : Bool := !(c = '\n')

/-- Character equality, optionally case-insensitive (re.IGNORECASE on ASCII). -/
def charCI (ci : Bool) (a b : Char) : Bool :=
  if ci then a.toLower = b.toLower else a = b

/-- If `text` starts with `label` (case per `ci`), return the remainder. -/
def stripLabel (ci : Bool) : List Char → List Char → Option (List Char)
  | [], t => some t
  | _ :: _, [] => none
  | l :: ls, c :: cs => if charCI ci l c then stripLabel ci ls cs else none

/-- Python `str.strip(chars)`: drop characters satisfying `p` from both ends. -/
def stripChars (p : Char → Bool) (l : List Char) : List Char :=
  ((l.dropWhile p).reverse.dropWhile p).reverse

/-- Python `str.strip()` (whitespace on both ends). -/
def pyStrip (l : List Char) : List Char := stripChars isWS l

/-- The rest of the current line: maximal run of `.`-matchable characters. -/
def takeLine (l : List Char) : List Char := l.takeWhile notNL

/-- Matching of `\s*(C+)` (with `C` the class `p`, e.g. `.` or `[^\n\r]`)
at a fixed position, with the greedy star and the backtracking that Python's
engine performs when the remainder is exhausted: prefer consuming a
whitespace character into the star, else start the capture here. -/
def capTailP (p : Char → Bool) : List Char → Option (List Char)
  | [] => none
  | c :: rest =>
    if isWS c then
      match capTailP p rest with
      | some g => some g
      | none => if p c then some (c :: rest.takeWhile p) else none
    else some (c :: rest.takeWhile p)

/-- `re.search(label + r"\s*(C+)", text)`: leftmost occurrence of the literal
`label` (case per `ci`) whose tail admits the `\s*(C+)` continuation; returns
capture group 1. -/
def searchCapP (ci : Bool) (p : Char → Bool) (label : List Char) :
    List Char → Option (List Char)
  | [] => none
  | c :: rest =>
    match stripLabel ci label (c :: rest) with
    | some tail =>
      match capTailP p tail with
      | some g => some g
      | none => searchCapP ci p label rest
    | none => searchCapP ci p label rest

/-- `re.search(label + r"\s*(.+)", text)` — the single-line field rule. -/
def searchCap (ci : Bool) (label : List Char) (text : List Char) : Option (List Char) :=
  searchCapP ci notNL label text

/-- First occurrence of `needle`: the pair (before, after-the-needle). -/
def findSub (needle : List Char) : List Char → Option (List Char × List Char)
  | [] => none
  | c :: rest =>
    match stripLabel false needle (c :: rest) with
    | some after => some ([], after)
    | none =>
      match findSub needle rest with
      | some (pre, after) => some (c :: pre, after)
      | none => none

/-- Non-greedy `(.+?)endL` with DOTALL at a fixed position: the shortest
capture of at least one character followed by `endL`. -/
def between (endL : List Char) : List Char → Option (List Char)
  | [] => none
  | c :: rest =>
    match findSub endL rest with
    | some (pre, _) => some (c :: pre)
    | none => none

/-- `re.search(startL + "(.+?)" + endL, text, re.S)`: leftmost occurrence of
`startL` followed (non-greedily, ≥ 1 char) by `endL`; capture group 1. -/
def searchBlock (startL endL : List Char) : List Char → Option (List Char)
  | [] => none
  | c :: rest =>
    match stripLabel false startL (c :: rest) with
    | some tail =>
      match between endL tail with
      | some g => some g
      | none => searchBlock startL endL rest
    | none => searchBlock startL endL rest

/-- Split on characters satisfying `p`, keeping empty pieces (re.split). -/
def splitP (p : Char → Bool) : List Char → List (List Char)
  | [] => [[]]
  | c :: rest =>
    if p c then [] :: splitP p rest
    else
      match splitP p rest with
      | h :: t => (c :: h) :: t
      | [] => [[c]]

/-- The itemized-block cleanup of recruitments.py:
`[line.strip("- ").strip() for line in g.strip().splitlines() if line.strip()]`. -/
def cleanItems (g : List Char) : List Value :=
  ((splitP (fun c => c = '\n') (pyStrip g)).filter
      (fun line => !(pyStrip line).isEmpty)).map
    (fun line => Value.vstr ⟨pyStrip (stripChars (fun c => c = '-' || c = ' ') line)⟩)

/-- recruitments.py `remove_emojis`: delete every non-ASCII character. -/
def remove_emojis (l : List Char) : List Char := l.filter (fun c => c.toNat ≤ 127)

/-- Wrap an optional string as produced by `post.get(...)`. -/
def optV : Option String → Value
  | some s => .vstr s
  | none => .vnull

/-- recruitments.py `parse_job_post`: builds the job record in insertion
order; a field whose pattern does not match is omitted from the dict. -/
def parse_job_post (pid createdTime fullPicture : Option String) (message : String) :
    List (String × Value) :=
  let t := remove_emojis message.data
  let field := fun (k : String) (label : String) =>
    match searchCap false label.data t with
    | some g => [(k, Value.vstr ⟨pyStrip g⟩)]
    | none => ([] : List (String × Value))
  let loc :=
    match searchBlock "Location:".data "Salary:".data t with
    | some blk =>
      let sub := fun (label : String) =>
        match searchCap false label.data blk with
        | some g => Value.vstr ⟨pyStrip g⟩
        | none => Value.vstr ""
      [("location", Value.vobj
        [("type", sub "Type:"), ("address", sub "Address:"), ("city", sub "City:")])]
    | none => ([] : List (String × Value))
  let blockList := fun (k : String) (startL endL : String) =>
    match searchBlock startL.data endL.data t with
    | some g => [(k, Value.varr (cleanItems g))]
    | none => ([] : List (String × Value))
  let lineClass := fun (c : Char) => !(c = '\n') && !(c = '\r')
  let applyObj :=
    (match searchCapP false lineClass "Email:".data t with
     | some g => [("email", Value.vstr ⟨pyStrip g⟩)]
     | none => ([] : List (String × Value))) ++
    (match searchCapP false lineClass "Contact:".data t with
     | some g => [("contact_person", Value.vstr ⟨pyStrip g⟩)]
     | none => ([] : List (String × Value)))
  [("id", optV pid), ("created_time", optV createdTime),
   ("full_picture", optV fullPicture)]
  ++ (match searchCap false "Company:".data t with
      | some g => [("company", Value.vobj [("name", Value.vstr ⟨pyStrip g⟩)])]
      | none => ([] : List (String × Value)))
  ++ field "title" "Position:"
  ++ field "description" "Description:"
  ++ field "level" "Level:"
  ++ loc
  ++ field "salary" "Salary:"
  ++ field "work_time" "Work Time:"
  ++ blockList "requirements" "Requirements:" "Benefits:"
  ++ blockList "benefits" "Benefits:" "Deadline:"
  ++ field "apply_deadline" "Deadline:"
  ++ (if applyObj.isEmpty then [] else [("apply", Value.vobj applyObj)])
  ++ blockList "tags" "Tags:" "Apply:"

/-- events.py single-line scalar field: case-insensitive search, strip, and
the literal-"null" normalization. -/
def evScalar (label : String) (t : List Char) : Value :=
  match searchCap true label.data t with
  | none => Value.vnull
  | some g =>
    let v := pyStrip g
    if v.map Char.toLower = "null".data then Value.vnull else Value.vstr ⟨v⟩

/-- events.py `post_to_json`: all nine declared fields are always assigned
(absent labels give null), then the default rules for members / logo /
background rewrite falsy values in place. -/
def post_to_json (post_text : String) : List (String × Value) :=
  let t := post_text.data
  let categories :=
    match searchCap true "Categories:".data t with
    | none => Value.vnull
    | some g =>
      Value.varr ((splitP (fun c => c = '|' || c = ',') (pyStrip g)).map
        (fun piece => Value.vstr ⟨pyStrip piece⟩))
  let members0 := evScalar "Members:" t
  let logo0 := evScalar "Logo:" t
  let background0 := evScalar "Background:" t
  [("title", evScalar "Title:" t),
   ("date", evScalar "Date:" t),
   ("location", evScalar "Location:" t),
   ("categories", categories),
   ("members", if members0.isFalsy then Value.vnull else members0),
   ("logo", if logo0.isFalsy then Value.vnull else logo0),
   ("background", if background0.isFalsy
     then Value.vstr "linear-gradient(45deg, #FDEB71, #F8D800)" else background0),
   ("url", evScalar "URL:" t),
   ("description", evScalar "Description:" t)]

/-- facebook_posts.py title extraction: case-insensitive Title search, and
when the stripped result is empty or the search fails, the fallback
`message.split("\n")[0].strip()`. -/
def fb_title (message : String) : List Char :=
  let t :=
    match searchCap true "Title:".data message.data with
    | some g => pyStrip g
    | none => []
  if t.isEmpty then pyStrip (message.data.takeWhile (fun c => !(c = '\n'))) else t

/-- The author-id hashtag scan, pattern hash + `([A-Z]\d{3})` with
re.IGNORECASE (facebook_posts.py, news.py): leftmost match, group 1, and the
subsequent `.upper()` applied to the captured letter. -/
def idScan : List Char → Option (List Char)
  | '#' :: a :: b :: c :: d :: rest =>
    if (('A' ≤ a && a ≤ 'Z') || ('a' ≤ a && a ≤ 'z'))
        && ('0' ≤ b && b ≤ '9') && ('0' ≤ c && c ≤ '9') && ('0' ≤ d && d ≤ '9')
    then some [a.toUpper, b, c, d]
    else idScan (a :: b :: c :: d :: rest)
  | _ :: rest => idScan rest
  | [] => none

/-- Identity key of a recruitment record: `j.get("id")`. -/
def jobKey (j : List (String × Value)) : Option Value := lookupA "id" j

/-- recruitments.py dedup step of the ingest loop: skip when some persisted
record has the candidate's id, else prepend; the Bool reports "inserted". -/
def mergeRecruitment (data : List (List (String × Value)))
    (job : List (String × Value)) : List (List (String × Value)) × Bool :=
  if data.any (fun j => jobKey j == jobKey job) then (data, false)
  else (job :: data, true)

/-- Identity key of an event record: `e.get("title")`. -/
def eventKey (e : List (String × Value)) : Option Value := lookupA "title" e

/-- events.py `insert_event`: skip when the candidate's title is among the
existing titles, else prepend; the Bool reports "inserted". -/
def insert_event (events : List (List (String × Value)))
    (event_data : List (String × Value)) : List (List (String × Value)) × Bool :=
  if events.any (fun e => eventKey e == eventKey event_data) then (events, false)
  else (event_data :: events, true)

/-- Python format spec 02d: zero-pad the counter to width two. -/
def pad2 (n : Nat) : String := if n < 10 then "0" ++ toString n else toString n

/-- companies.py partition test `company.get("country") == "Vietnam"`: true
exactly when the country field holds that very string. -/
def isVN (c : List (String × Value)) : Bool :=
  match lookupA "country" c with
  | some (Value.vstr s) => s = "Vietnam"
  | _ => false

/-- companies.py per-record rebuild: `new_company` starts as the dict with
only the assigned id, then `new_company.update(company)`; so the id key sits
first, but an existing "id" binding in `company` overwrites the assigned
counter id (dict.update semantics). -/
def withId (cid : String) (c : List (String × Value)) : List (String × Value) :=
  ("id", (lookupA "id" c).getD (Value.vstr cid)) :: eraseKey "id" c

/-- companies.py id-assignment loop with the two running counters. -/
def assignIds : Nat → Nat → List (List (String × Value)) → List (List (String × Value))
  | _, _, [] => []
  | vn, ob, c :: rest =>
    if isVN c then withId ("COMVN" ++ pad2 vn) c :: assignIds (vn + 1) ob rest
    else withId ("COMOB" ++ pad2 ob) c :: assignIds vn (ob + 1) rest

/-- companies.py whole-file rebuild: both counters start at 1. -/
def companiesRebuild (companies : List (List (String × Value))) :
    List (List (String × Value)) :=
  assignIds 1 1 companies

/-- roles_and_badges.py membership test `b_id in badge_map` for a
string-keyed dict: non-string ids are never found. -/
def badgeLookup (badge_map : List (String × Value)) : Value → Option Value
  | .vstr s => lookupA s badge_map
  | _ => none

/-- roles_and_badges.py badge replacement loop: resolved entities are
appended to the new list in order, and a warning is recorded (in loop order)
for every id that is not in the catalog. -/
def replaceBadges (badge_map : List (String × Value)) (ids : List Value) :
    List Value × List Value :=
  ids.foldl
    (fun acc b =>
      match badgeLookup badge_map b with
      | some e => (acc.1 ++ [e], acc.2)
      | none => (acc.1, acc.2 ++ [b]))
    ([], [])

/-- roles_and_badges.py per-author badge enrichment, guarded by
`if "badges" in author and author["badges"]` (the badges value in the data
model is an array of id strings; a missing, null or empty badges entry
leaves the author untouched). -/
def enrichAuthorBadges (badge_map author : List (String × Value)) :
    List (String × Value) :=
  match lookupA "badges" author with
  | some (Value.varr ids) =>
    if ids.isEmpty then author
    else setKey "badges" (Value.varr (replaceBadges badge_map ids).1) author
  | _ => author

/-- Follows the spec's words for the single-line rule (refinement
comparison): the first line of the text beginning with the label,
case-insensitively; the captured value is the remainder of that line,
trimmed; absent if no line begins with the label. -/
def specLineCapture (label text : List Char) : Option (List Char) :=
  ((splitP (fun c => c = '\n') text).findSome?
    (fun line => stripLabel true label line)).map pyStrip

/-- Follows the spec's words for the title fallback (refinement comparison):
the first non-empty line of the raw text. -/
def firstNonEmptyLine (text : List Char) : List Char :=
  ((splitP (fun c => c = '\n') text).filter (fun l => !l.isEmpty)).headD []

/-- The worked-example post text from the spec (section 8). -/
def c4Text : String := "Title: Backend Engineer\nPosition: Backend Engineer\nLocation:Type: Remote Address: N/A City: HCMC Salary:1200\nSalary: 1200 USD\nRequirements:\n- Go\n- SQL\nBenefits:\n- Insurance\nDeadline: 2025-12-01"

/-- Projection: the location type of a job record, as a string. -/
def locTypeOf (job : List (String × Value)) : Option String :=
  match lookupA "location" job with
  | some (Value.vobj l) =>
    match lookupA "type" l with
    | some (Value.vstr s) => some s
    | _ => none
  | _ => none

/-- Projection: the id of a company record, as a string. -/
def companyIdStr (c : List (String × Value)) : Option String :=
  match lookupA "id" c with
  | some (Value.vstr s) => some s
  | _ => none

/-- The key list contributed by an optional record segment: the declared
key when the pattern matched, nothing when it did not. -/
def optKeys (o : Option (List Char)) (k : String) : List String :=
  match o with
  | some _ => [k]
  | none => []

/-- The key list contributed by the apply segment: present exactly when an
email or a contact line matched. -/
def applyKeys (e c : Option (List Char)) : List String :=
  match e, c with
  | none, none => []
  | _, _ => ["apply"]

/-- An optional record segment of parse_job_post: one binding under the
declared key when the pattern matched, nothing when it did not. -/
def segF (k : String) (f : List Char → Value) (o : Option (List Char)) :
    List (String × Value) :=
  match o with
  | some g => [(k, f g)]
  | none => []

/-- The identity tag companies.py computes for a record, given the records
before it: the partition tag plus the zero-padded per-partition counter
starting at 1. -/
def companyTag (pre : List (List (String × Value))) (c : List (String × Value)) : String :=
  if isVN c then "COMVN" ++ pad2 (1 + pre.countP (fun x => isVN x))
  else "COMOB" ++ pad2 (1 + pre.countP (fun x => !(isVN x)))

/-- Concrete companies input for the C8 witness. -/
def c8Input : List (List (String × Value)) :=
  [[("country", Value.vstr "Vietnam"), ("name", Value.vstr "a")],
   [("country", Value.vstr "France")],
   [("country", Value.vstr "Vietnam")]]

/-- C1: identity-based merge contract.  A candidate whose identity key (id
for recruitment posts, title for events) already occurs in the persisted
collection is skipped and the collection is unchanged; otherwise the
candidate is prepended and reported inserted. -/
theorem C1_merge_contract (dataJ : List (List (String × Value)))
    (r : List (String × Value)) (dataE : List (List (String × Value)))
    (e : List (String × Value)) :
    ((∃ j ∈ dataJ, jobKey j = jobKey r) → mergeRecruitment dataJ r = (dataJ, false)) ∧
    ((∀ j ∈ dataJ, jobKey j ≠ jobKey r) → mergeRecruitment dataJ r = (r :: dataJ, true)) ∧
    ((∃ x ∈ dataE, eventKey x = eventKey e) → insert_event dataE e = (dataE, false)) ∧
    ((∀ x ∈ dataE, eventKey x ≠ eventKey e) → insert_event dataE e = (e :: dataE, true)) := by
  refine ⟨?_, ?_, ?_, ?_⟩
  · intro h
    have hd : dataJ.any (fun j => jobKey j == jobKey r) = true := by
      rcases h with ⟨j, hj, hk⟩
      exact List.any_eq_true.mpr ⟨j, hj, by simp [hk]⟩
    simp [mergeRecruitment, hd]
  · intro h
    have hd : dataJ.any (fun j => jobKey j == jobKey r) = false := by
      rw [Bool.eq_false_iff]
      intro hc
      rcases List.any_eq_true.mp hc with ⟨j, hj, hk⟩
      exact h j hj (by simpa using hk)
    simp [mergeRecruitment, hd]
  · intro h
    have hd : dataE.any (fun x => eventKey x == eventKey e) = true := by
      rcases h with ⟨x, hx, hk⟩
      exact List.any_eq_true.mpr ⟨x, hx, by simp [hk]⟩
    simp [insert_event, hd]
  · intro h
    have hd : dataE.any (fun x => eventKey x == eventKey e) = false := by
      rw [Bool.eq_false_iff]
      intro hc
      rcases List.any_eq_true.mp hc with ⟨x, hx, hk⟩
      exact h x hx (by simpa using hk)
    simp [insert_event, hd]

/-- Witness for C1 at concrete collections: a duplicate id is skipped, a
fresh title is prepended. -/
theorem C1_merge_contract_witness :
    mergeRecruitment [[("id", Value.vstr "123")]] [("id", Value.vstr "123")] =
      ([[("id", Value.vstr "123")]], false) ∧
    insert_event [] [("title", Value.vstr "T")] = ([[("title", Value.vstr "T")]], true) :=
  ⟨(C1_merge_contract [[("id", Value.vstr "123")]] [("id", Value.vstr "123")]
      [] [("title", Value.vstr "T")]).1 ⟨[("id", Value.vstr "123")], by simp, rfl⟩,
   (C1_merge_contract [[("id", Value.vstr "123")]] [("id", Value.vstr "123")]
      [] [("title", Value.vstr "T")]).2.2.2 (by intro x hx; cases hx)⟩

/-- C2: merge idempotence.  Merging the same candidate a second time leaves
the collection of the first merge unchanged and reports a skipped
duplicate, for both the recruitment and the event merge. -/
theorem C2_merge_idempotent (dataJ : List (List (String × Value)))
    (r : List (String × Value)) (dataE : List (List (String × Value)))
    (e : List (String × Value)) :
    mergeRecruitment (mergeRecruitment dataJ r).1 r = ((mergeRecruitment dataJ r).1, false) ∧
    insert_event (insert_event dataE e).1 e = ((insert_event dataE e).1, false) := by
  constructor
  · by_cases hd : dataJ.any (fun j => jobKey j == jobKey r) = true
    · simp [mergeRecruitment, hd]
    · simp [mergeRecruitment, hd]
  · by_cases hd : dataE.any (fun x => eventKey x == eventKey e) = true
    · simp [insert_event, hd]
    · simp [insert_event, hd]

/-- C3: identity-key uniqueness invariant.  If the identity keys of the
persisted collection are pairwise distinct, they remain pairwise distinct
after a merge, for both the recruitment and the event merge. -/
theorem C3_key_uniqueness (dataJ : List (List (String × Value)))
    (r : List (String × Value)) (dataE : List (List (String × Value)))
    (e : List (String × Value)) :
    ((dataJ.map jobKey).Nodup → (((mergeRecruitment dataJ r).1).map jobKey).Nodup) ∧
    ((dataE.map eventKey).Nodup → (((insert_event dataE e).1).map eventKey).Nodup) := by
  constructor
  · intro h
    by_cases hd : dataJ.any (fun j => jobKey j == jobKey r) = true
    · simpa [mergeRecruitment, hd] using h
    · have hnotin : jobKey r ∉ dataJ.map jobKey := by
        intro hmem
        rcases List.mem_map.mp hmem with ⟨j, hj, hk⟩
        exact hd (List.any_eq_true.mpr ⟨j, hj, by simp [hk]⟩)
      have hd' : dataJ.any (fun j => jobKey j == jobKey r) = false :=
        Bool.eq_false_iff.mpr hd
      simp [mergeRecruitment, hd', List.nodup_cons, hnotin, h]
  · intro h
    by_cases hd : dataE.any (fun x => eventKey x == eventKey e) = true
    · simpa [insert_event, hd] using h
    · have hnotin : eventKey e ∉ dataE.map eventKey := by
        intro hmem
        rcases List.mem_map.mp hmem with ⟨x, hx, hk⟩
        exact hd (List.any_eq_true.mpr ⟨x, hx, by simp [hk]⟩)
      have hd' : dataE.any (fun x => eventKey x == eventKey e) = false :=
        Bool.eq_false_iff.mpr hd
      simp [insert_event, hd', List.nodup_cons, hnotin, h]

/-- Witness for C3 at concrete collections with distinct keys. -/
theorem C3_key_uniqueness_witness :
    (((mergeRecruitment [[("id", Value.vstr "1")]] [("id", Value.vstr "2")]).1.map jobKey).Nodup) ∧
    (((insert_event [[("title", Value.vstr "A")]] [("title", Value.vstr "B")]).1.map eventKey).Nodup) :=
  ⟨(C3_key_uniqueness [[("id", Value.vstr "1")]] [("id", Value.vstr "2")]
      [[("title", Value.vstr "A")]] [("title", Value.vstr "B")]).1 (by simp),
   (C3_key_uniqueness [[("id", Value.vstr "1")]] [("id", Value.vstr "2")]
      [[("title", Value.vstr "A")]] [("title", Value.vstr "B")]).2 (by simp)⟩

/-- C4 counterexample: on the spec's worked example the location type
captured by the code is the whole greedy rest of the line, not "Remote". -/
theorem C4_counterexample :
    locTypeOf (parse_job_post none none none c4Text) = some "Remote Address: N/A City: HCMC" ∧
    locTypeOf (parse_job_post none none none c4Text) ≠ some "Remote" := by
  constructor
  · decide
  · decide

/-- C4 amended: the worked example parses to the stated record except that
the location sub-fields are captured greedily to the end of the single
location line: type is "Remote Address: N/A City: HCMC", address is
"N/A City: HCMC", city is "HCMC". -/
theorem C4_amended_example :
    parse_job_post none none none c4Text =
      [("id", Value.vnull), ("created_time", Value.vnull), ("full_picture", Value.vnull),
       ("title", Value.vstr "Backend Engineer"),
       ("location", Value.vobj
         [("type", Value.vstr "Remote Address: N/A City: HCMC"),
          ("address", Value.vstr "N/A City: HCMC"),
          ("city", Value.vstr "HCMC")]),
       ("salary", Value.vstr "1200"),
       ("requirements", Value.varr [Value.vstr "Go", Value.vstr "SQL"]),
       ("benefits", Value.varr [Value.vstr "Insurance"]),
       ("apply_deadline", Value.vstr "2025-12-01")] := rfl

/-- C10: the hashtag id scan needs no boundary after the digits (so
"#A1234" yields key "A123"), is case-insensitive, and uses the first
occurrence in the message. -/
theorem C10_id_hashtag_scan :
    idScan "only #A1234 here".data = some "A123".data ∧
    idScan "#a123".data = some "A123".data ∧
    idScan "x #B999 #A111".data = some "B999".data := by
  refine ⟨?_, ?_, ?_⟩ <;> decide

/-- parse_job_post decomposed into its record segments (definitional). -/
theorem parse_job_post_eq (pid ct fp : Option String) (message : String) :
    parse_job_post pid ct fp message =
      [("id", optV pid), ("created_time", optV ct), ("full_picture", optV fp)]
      ++ segF "company" (fun g => Value.vobj [("name", Value.vstr ⟨pyStrip g⟩)])
          (searchCap false "Company:".data (remove_emojis message.data))
      ++ segF "title" (fun g => Value.vstr ⟨pyStrip g⟩)
          (searchCap false "Position:".data (remove_emojis message.data))
      ++ segF "description" (fun g => Value.vstr ⟨pyStrip g⟩)
          (searchCap false "Description:".data (remove_emojis message.data))
      ++ segF "level" (fun g => Value.vstr ⟨pyStrip g⟩)
          (searchCap false "Level:".data (remove_emojis message.data))
      ++ segF "location" (fun blk => Value.vobj
          [("type", match searchCap false "Type:".data blk with
                    | some g => Value.vstr ⟨pyStrip g⟩
                    | none => Value.vstr ""),
           ("address", match searchCap false "Address:".data blk with
                    | some g => Value.vstr ⟨pyStrip g⟩
                    | none => Value.vstr ""),
           ("city", match searchCap false "City:".data blk with
                    | some g => Value.vstr ⟨pyStrip g⟩
                    | none => Value.vstr "")])
          (searchBlock "Location:".data "Salary:".data (remove_emojis message.data))
      ++ segF "salary" (fun g => Value.vstr ⟨pyStrip g⟩)
          (searchCap false "Salary:".data (remove_emojis message.data))
      ++ segF "work_time" (fun g => Value.vstr ⟨pyStrip g⟩)
          (searchCap false "Work Time:".data (remove_emojis message.data))
      ++ segF "requirements" (fun g => Value.varr (cleanItems g))
          (searchBlock "Requirements:".data "Benefits:".data (remove_emojis message.data))
      ++ segF "benefits" (fun g => Value.varr (cleanItems g))
          (searchBlock "Benefits:".data "Deadline:".data (remove_emojis message.data))
      ++ segF "apply_deadline" (fun g => Value.vstr ⟨pyStrip g⟩)
          (searchCap false "Deadline:".data (remove_emojis message.data))
      ++ (if (segF "email" (fun g => Value.vstr ⟨pyStrip g⟩)
              (searchCapP false (fun c => !(c = '\n') && !(c = '\r')) "Email:".data
                (remove_emojis message.data))
            ++ segF "contact_person" (fun g => Value.vstr ⟨pyStrip g⟩)
              (searchCapP false (fun c => !(c = '\n') && !(c = '\r')) "Contact:".data
                (remove_emojis message.data))).isEmpty
          then ([] : List (String × Value))
          else [("apply", Value.vobj
            (segF "email" (fun g => Value.vstr ⟨pyStrip g⟩)
              (searchCapP false (fun c => !(c = '\n') && !(c = '\r')) "Email:".data
                (remove_emojis message.data))
            ++ segF "contact_person" (fun g => Value.vstr ⟨pyStrip g⟩)
              (searchCapP false (fun c => !(c = '\n') && !(c = '\r')) "Contact:".data
                (remove_emojis message.data))))])
      ++ segF "tags" (fun g => Value.varr (cleanItems g))
          (searchBlock "Tags:".data "Apply:".data (remove_emojis message.data)) := rfl

/-- The keys of an optional segment. -/
theorem map_fst_segF (k : String) (f : List Char → Value) (o : Option (List Char)) :
    (segF k f o).map Prod.fst = optKeys o k := by
  cases o <;> rfl

/-- The keys of the apply segment. -/
theorem map_fst_applySeg (e c : Option (List Char)) (f1 f2 : List Char → Value) :
    ((if (segF "email" f1 e ++ segF "contact_person" f2 c).isEmpty
      then ([] : List (String × Value))
      else [("apply", Value.vobj
        (segF "email" f1 e ++ segF "contact_person" f2 c))]).map Prod.fst) =
      applyKeys e c := by
  cases e <;> cases c <;> rfl

/-- Membership in an optional segment's keys. -/
theorem mem_optKeys (a k : String) (o : Option (List Char)) :
    a ∈ optKeys o k ↔ o.isSome = true ∧ a = k := by
  cases o <;> simp [optKeys]

/-- Membership in the apply segment's keys. -/
theorem mem_applyKeys (a : String) (e c : Option (List Char)) :
    a ∈ applyKeys e c ↔ ¬(e = none ∧ c = none) ∧ a = "apply" := by
  cases e <;> cases c <;> simp [applyKeys]

/-- Complete characterization of the keys of a parsed job record: the three
base fields first, then one key per declared field exactly when its pattern
matched (the apply key when an email or contact line matched). -/
theorem parse_job_post_keys (pid ct fp : Option String) (message : String) :
    (parse_job_post pid ct fp message).map Prod.fst =
      ["id", "created_time", "full_picture"]
      ++ optKeys (searchCap false "Company:".data (remove_emojis message.data)) "company"
      ++ optKeys (searchCap false "Position:".data (remove_emojis message.data)) "title"
      ++ optKeys (searchCap false "Description:".data (remove_emojis message.data)) "description"
      ++ optKeys (searchCap false "Level:".data (remove_emojis message.data)) "level"
      ++ optKeys (searchBlock "Location:".data "Salary:".data (remove_emojis message.data)) "location"
      ++ optKeys (searchCap false "Salary:".data (remove_emojis message.data)) "salary"
      ++ optKeys (searchCap false "Work Time:".data (remove_emojis message.data)) "work_time"
      ++ optKeys (searchBlock "Requirements:".data "Benefits:".data (remove_emojis message.data)) "requirements"
      ++ optKeys (searchBlock "Benefits:".data "Deadline:".data (remove_emojis message.data)) "benefits"
      ++ optKeys (searchCap false "Deadline:".data (remove_emojis message.data)) "apply_deadline"
      ++ applyKeys
          (searchCapP false (fun c => !(c = '\n') && !(c = '\r')) "Email:".data
            (remove_emojis message.data))
          (searchCapP false (fun c => !(c = '\n') && !(c = '\r')) "Contact:".data
            (remove_emojis message.data))
      ++ optKeys (searchBlock "Tags:".data "Apply:".data (remove_emojis message.data)) "tags" := by
  rw [parse_job_post_eq]
  simp only [List.map_append, map_fst_segF, map_fst_applySeg]
  rfl

/-- C6 counterexample: on an empty message the recruitment parser's record
carries only id, created_time and full_picture; the declared grammar field
"title" (and every other optional field) is missing from the record rather
than present as null. -/
theorem C6_counterexample :
    ((parse_job_post none none none "").map Prod.fst = ["id", "created_time", "full_picture"]) ∧
    ¬ ("title" ∈ (parse_job_post none none none "").map Prod.fst) := by
  refine ⟨?_, ?_⟩ <;> decide

/-- C6 amended: the event parser always emits exactly its nine declared
fields (possibly null) in a fixed order; the recruitment parser always
starts its record with id, created_time and full_picture, omits every other
declared field whose pattern does not match (the apply field is omitted
when neither an Email: nor a Contact: line matches), and in general its key
list carries one key per declared field exactly when that field's pattern
matched. -/
theorem C6_amended_fields (post_text : String) (pid ct fp : Option String)
    (message : String) :
    (post_to_json post_text).map Prod.fst =
      ["title", "date", "location", "categories", "members", "logo",
       "background", "url", "description"] ∧
    ((parse_job_post pid ct fp message).map Prod.fst).take 3 =
      ["id", "created_time", "full_picture"] ∧
    (∀ kp ∈ ([
        ("company", searchCap false "Company:".data (remove_emojis message.data)),
        ("title", searchCap false "Position:".data (remove_emojis message.data)),
        ("description", searchCap false "Description:".data (remove_emojis message.data)),
        ("level", searchCap false "Level:".data (remove_emojis message.data)),
        ("location", searchBlock "Location:".data "Salary:".data (remove_emojis message.data)),
        ("salary", searchCap false "Salary:".data (remove_emojis message.data)),
        ("work_time", searchCap false "Work Time:".data (remove_emojis message.data)),
        ("requirements", searchBlock "Requirements:".data "Benefits:".data (remove_emojis message.data)),
        ("benefits", searchBlock "Benefits:".data "Deadline:".data (remove_emojis message.data)),
        ("apply_deadline", searchCap false "Deadline:".data (remove_emojis message.data)),
        ("tags", searchBlock "Tags:".data "Apply:".data (remove_emojis message.data))] :
        List (String × Option (List Char))),
      kp.2 = none → ¬ kp.1 ∈ (parse_job_post pid ct fp message).map Prod.fst) ∧
    ((searchCapP false (fun c => !(c = '\n') && !(c = '\r')) "Email:".data
        (remove_emojis message.data) = none ∧
      searchCapP false (fun c => !(c = '\n') && !(c = '\r')) "Contact:".data
        (remove_emojis message.data) = none) →
      ¬ "apply" ∈ (parse_job_post pid ct fp message).map Prod.fst) ∧
    (parse_job_post pid ct fp message).map Prod.fst =
      ["id", "created_time", "full_picture"]
      ++ optKeys (searchCap false "Company:".data (remove_emojis message.data)) "company"
      ++ optKeys (searchCap false "Position:".data (remove_emojis message.data)) "title"
      ++ optKeys (searchCap false "Description:".data (remove_emojis message.data)) "description"
      ++ optKeys (searchCap false "Level:".data (remove_emojis message.data)) "level"
      ++ optKeys (searchBlock "Location:".data "Salary:".data (remove_emojis message.data)) "location"
      ++ optKeys (searchCap false "Salary:".data (remove_emojis message.data)) "salary"
      ++ optKeys (searchCap false "Work Time:".data (remove_emojis message.data)) "work_time"
      ++ optKeys (searchBlock "Requirements:".data "Benefits:".data (remove_emojis message.data)) "requirements"
      ++ optKeys (searchBlock "Benefits:".data "Deadline:".data (remove_emojis message.data)) "benefits"
      ++ optKeys (searchCap false "Deadline:".data (remove_emojis message.data)) "apply_deadline"
      ++ applyKeys
          (searchCapP false (fun c => !(c = '\n') && !(c = '\r')) "Email:".data
            (remove_emojis message.data))
          (searchCapP false (fun c => !(c = '\n') && !(c = '\r')) "Contact:".data
            (remove_emojis message.data))
      ++ optKeys (searchBlock "Tags:".data "Apply:".data (remove_emojis message.data)) "tags" := by
  refine ⟨rfl, rfl, ?_, ?_, parse_job_post_keys pid ct fp message⟩
  · intro kp hkp
    simp only [List.mem_cons, List.not_mem_nil, or_false] at hkp
    rcases hkp with h | h | h | h | h | h | h | h | h | h | h <;>
      subst h <;>
      intro hnone <;>
      rw [parse_job_post_keys] <;>
      simp_all [mem_optKeys, mem_applyKeys]
  · rintro ⟨he, hc⟩
    rw [parse_job_post_keys]
    simp [he, hc, applyKeys, mem_optKeys, mem_applyKeys]

/-- C7 counterexample: a message whose first line is empty and that has no
title label gets the empty title, not the first non-empty line. -/
theorem C7_counterexample :
    fb_title "\nHello #posts" = [] ∧
    firstNonEmptyLine "\nHello #posts".data = "Hello #posts".data ∧
    fb_title "\nHello #posts" ≠ firstNonEmptyLine "\nHello #posts".data := by
  refine ⟨?_, ?_, ?_⟩ <;> decide

/-- C7 amended: when the title search fails, the record's title is the
first line of the raw message (the text before the first newline), trimmed
of whitespace — possibly empty. -/
theorem C7_amended_fallback (message : String)
    (h : searchCap true "Title:".data message.data = none) :
    fb_title message = pyStrip (message.data.takeWhile (fun c => !(c = '\n'))) := by
  simp [fb_title, h]

/-- Witness for C7 at a concrete message without a title label. -/
theorem C7_amended_fallback_witness :
    searchCap true "Title:".data "  hey there\nrest".data = none ∧
    fb_title "  hey there\nrest" =
      pyStrip ("  hey there\nrest".data.takeWhile (fun c => !(c = '\n'))) :=
  ⟨by decide, C7_amended_fallback "  hey there\nrest" (by decide)⟩

/-- Accumulator characterization of the badge replacement loop. -/
theorem replaceBadges_loop (bm : List (String × Value)) (ids : List Value)
    (acc : List Value × List Value) :
    ids.foldl
      (fun acc b =>
        match badgeLookup bm b with
        | some e => (acc.1 ++ [e], acc.2)
        | none => (acc.1, acc.2 ++ [b])) acc =
    (acc.1 ++ ids.filterMap (badgeLookup bm),
     acc.2 ++ ids.filter (fun b => (badgeLookup bm b).isNone)) := by
  induction ids generalizing acc with
  | nil => simp
  | cons b rest ih =>
    cases hb : badgeLookup bm b with
    | some e =>
      simp only [List.foldl_cons, hb, ih, List.filterMap_cons, List.filter_cons, hb]
      simp [List.append_assoc]
    | none =>
      simp only [List.foldl_cons, hb, ih, List.filterMap_cons, List.filter_cons, hb]
      simp [List.append_assoc]

/-- After a `setKey`, looking the key up yields the new value. -/
theorem lookupA_setKey (k : String) (v : Value) (l : List (String × Value)) :
    lookupA k (setKey k v l) = some v := by
  induction l with
  | nil => simp [setKey, lookupA]
  | cons p rest ih =>
    by_cases hk : p.1 = k
    · simp [setKey, lookupA, hk]
    · simp [setKey, lookupA, hk, ih]

/-- C9: badge resolution.  The replacement loop turns the ordered badge-id
list into the catalog entities of exactly the ids found, in the original
order; every id not in the catalog is dropped from the result and recorded
as a diagnostic; and the enriched author's badges field holds exactly the
resolved entities. -/
theorem C9_badge_resolution (badge_map author : List (String × Value))
    (ids : List Value) (h : lookupA "badges" author = some (Value.varr ids)) :
    (replaceBadges badge_map ids).1 = ids.filterMap (badgeLookup badge_map) ∧
    (replaceBadges badge_map ids).2 =
      ids.filter (fun b => (badgeLookup badge_map b).isNone) ∧
    lookupA "badges" (enrichAuthorBadges badge_map author) =
      some (Value.varr (ids.filterMap (badgeLookup badge_map))) := by
  refine ⟨?_, ?_, ?_⟩
  · simp [replaceBadges, replaceBadges_loop]
  · simp [replaceBadges, replaceBadges_loop]
  · by_cases he : ids.isEmpty = true
    · have : ids = [] := List.isEmpty_iff.mp he
      subst this
      simp [enrichAuthorBadges, h, he]
    · simp [enrichAuthorBadges, h, he, lookupA_setKey, replaceBadges, replaceBadges_loop]

/-- Witness for C9 at a concrete catalog and author: B1 resolves, B2 is
dropped with a diagnostic. -/
theorem C9_badge_resolution_witness :
    lookupA "badges" [("badges", Value.varr [Value.vstr "B1", Value.vstr "B2"])] =
      some (Value.varr [Value.vstr "B1", Value.vstr "B2"]) ∧
    ((replaceBadges [("B1", Value.vobj [("id", Value.vstr "B1")])]
        [Value.vstr "B1", Value.vstr "B2"]).1 =
      [Value.vstr "B1", Value.vstr "B2"].filterMap
        (badgeLookup [("B1", Value.vobj [("id", Value.vstr "B1")])]) ∧
    (replaceBadges [("B1", Value.vobj [("id", Value.vstr "B1")])]
        [Value.vstr "B1", Value.vstr "B2"]).2 =
      [Value.vstr "B1", Value.vstr "B2"].filter
        (fun b => (badgeLookup [("B1", Value.vobj [("id", Value.vstr "B1")])] b).isNone) ∧
    lookupA "badges"
        (enrichAuthorBadges [("B1", Value.vobj [("id", Value.vstr "B1")])]
          [("badges", Value.varr [Value.vstr "B1", Value.vstr "B2"])]) =
      some (Value.varr ([Value.vstr "B1", Value.vstr "B2"].filterMap
        (badgeLookup [("B1", Value.vobj [("id", Value.vstr "B1")])])))) :=
  ⟨rfl,
   C9_badge_resolution [("B1", Value.vobj [("id", Value.vstr "B1")])]
     [("badges", Value.varr [Value.vstr "B1", Value.vstr "B2"])]
     [Value.vstr "B1", Value.vstr "B2"] rfl⟩

/-- Dropping a leading whitespace character does not change a strip. -/
theorem pyStrip_cons_ws {c : Char} (hw : isWS c = true) (l : List Char) :
    pyStrip (c :: l) = pyStrip l := by
  simp [pyStrip, stripChars, List.dropWhile_cons, hw]

/-- A newline is whitespace. -/
theorem isWS_newline : isWS '\n' = true := rfl

/-- When the current line contains a non-whitespace character, the
greedy-with-backtracking tail match succeeds and captures a string with the
same stripped content as the rest of the line. -/
theorem capTailP_line {l : List Char} (h : ∃ c ∈ takeLine l, isWS c = false) :
    ∃ g, capTailP notNL l = some g ∧ pyStrip g = pyStrip (takeLine l) := by
  induction l with
  | nil => simp [takeLine] at h
  | cons c rest ih =>
    by_cases hnl : c = '\n'
    · subst hnl
      simp [takeLine, List.takeWhile_cons, notNL] at h
    · have hcnl : notNL c = true := by simp [notNL, hnl]
      have htl : takeLine (c :: rest) = c :: takeLine rest := by
        simp [takeLine, List.takeWhile_cons, hcnl]
      by_cases hws : isWS c = true
      · rw [htl] at h
        have h' : ∃ x ∈ takeLine rest, isWS x = false := by
          rcases h with ⟨x, hx, hxw⟩
          rcases List.mem_cons.mp hx with he | hm
          · subst he; rw [hws] at hxw; cases hxw
          · exact ⟨x, hm, hxw⟩
        rcases ih h' with ⟨g, hg, hgs⟩
        refine ⟨g, ?_, ?_⟩
        · simp [capTailP, hws, hg]
        · rw [hgs, htl, pyStrip_cons_ws hws]
      · have hwsf : isWS c = false := Bool.eq_false_iff.mpr hws
        refine ⟨c :: rest.takeWhile notNL, ?_, ?_⟩
        · simp [capTailP, hwsf]
        · rw [htl]; rfl

/-- A label occurring nowhere in the text gives no single-line match. -/
theorem searchCapP_no_occurrence (ci : Bool) (p : Char → Bool) (label : List Char)
    (text : List Char) (h : ∀ j, stripLabel ci label (text.drop j) = none) :
    searchCapP ci p label text = none := by
  induction text with
  | nil => simp [searchCapP]
  | cons c rest ih =>
    have h0 := h 0
    rw [List.drop_zero] at h0
    have ih' := ih (fun j => by
      have := h (j + 1)
      rwa [List.drop_succ_cons] at this)
    simp [searchCapP, h0, ih']

/-- The single-line search captures at the first occurrence of the label:
when the line remainder after that occurrence contains a non-whitespace
character, the captured group strips to the stripped remainder of the line. -/
theorem searchCap_first_occurrence (ci : Bool) (label text tl : List Char) (i : Nat)
    (hmatch : stripLabel ci label (text.drop i) = some tl)
    (hfirst : ∀ j, j < i → stripLabel ci label (text.drop j) = none)
    (hnws : ∃ c ∈ takeLine tl, isWS c = false) :
    ∃ g, searchCap ci label text = some g ∧ pyStrip g = pyStrip (takeLine tl) := by
  induction text generalizing i with
  | nil =>
    rw [List.drop_nil] at hmatch
    cases label with
    | nil =>
      simp [stripLabel] at hmatch
      subst hmatch
      simp [takeLine] at hnws
    | cons a as => simp [stripLabel] at hmatch
  | cons c rest ih =>
    cases i with
    | zero =>
      rw [List.drop_zero] at hmatch
      rcases capTailP_line hnws with ⟨g, hg, hgs⟩
      exact ⟨g, by simp [searchCap, searchCapP, hmatch, hg], hgs⟩
    | succ i' =>
      have h0 := hfirst 0 (Nat.succ_pos i')
      rw [List.drop_zero] at h0
      have hm' : stripLabel ci label (rest.drop i') = some tl := by
        rwa [List.drop_succ_cons] at hmatch
      have hf' : ∀ j, j < i' → stripLabel ci label (rest.drop j) = none := fun j hj => by
        have := hfirst (j + 1) (Nat.succ_lt_succ hj)
        rwa [List.drop_succ_cons] at this
      rcases ih i' hm' hf' with ⟨g, hg, hgs⟩
      refine ⟨g, ?_, hgs⟩
      rw [searchCap] at hg ⊢
      simp [searchCapP, h0, hg]

/-- C5 counterexample: the recruitment parser matches its labels
case-sensitively ("company: Acme" is not extracted although a line begins
with the label up to case), and the event parser accepts a label in the
middle of a line, which the spec's first-line-beginning-with-label rule
rejects. -/
theorem C5_counterexample :
    lookupA "company" (parse_job_post none none none "company: Acme") = none ∧
    specLineCapture "Company:".data "company: Acme".data = some "Acme".data ∧
    searchCap true "Title:".data "xxTitle: A".data ≠
      specLineCapture "Title:".data "xxTitle: A".data := by
  refine ⟨?_, ?_, ?_⟩ <;> decide

/-- C5 amended: the single-line rule captures at the first occurrence of
the label anywhere in the text (not only at the start of a line), matched
case-insensitively for the event / facebook parsers (ci = true) but
case-sensitively for the recruitment parser (ci = false); when the
remainder of the matched line contains a non-whitespace character, the
stored value is that remainder trimmed of whitespace; when the label occurs
nowhere the search fails, upon which the event parser stores null and the
recruitment parser omits the field. -/
theorem C5_amended_single_line (ci : Bool) (label text : List Char) :
    (∀ i tl, stripLabel ci label (text.drop i) = some tl →
      (∀ j, j < i → stripLabel ci label (text.drop j) = none) →
      (∃ c ∈ takeLine tl, isWS c = false) →
      ∃ g, searchCap ci label text = some g ∧ pyStrip g = pyStrip (takeLine tl)) ∧
    ((∀ j, stripLabel ci label (text.drop j) = none) →
      searchCap ci label text = none) :=
  ⟨fun i tl hm hf hn => searchCap_first_occurrence ci label text tl i hm hf hn,
   fun h => searchCapP_no_occurrence ci notNL label text h⟩

/-- Witness for C5 at concrete inputs: a label at position 0 with a
non-blank line remainder captures that remainder stripped, and a label that
occurs nowhere yields no capture. -/
theorem C5_amended_single_line_witness :
    (∃ g, searchCap false "Position:".data "Position:  Hi there\nx".data = some g ∧
      pyStrip g = pyStrip (takeLine "  Hi there\nx".data)) ∧
    searchCap false "Salary:".data "abc".data = none :=
  ⟨(C5_amended_single_line false "Position:".data "Position:  Hi there\nx".data).1
      0 "  Hi there\nx".data rfl
      (fun j hj => absurd hj (Nat.not_lt_zero j))
      ⟨'H', by decide, by decide⟩,
   (C5_amended_single_line false "Salary:".data "abc".data).2 (by
      intro j
      match j with
      | 0 => decide
      | 1 => decide
      | 2 => decide
      | n + 3 =>
        rw [show ("abc".data.drop (n + 3)) = [] from
          List.drop_eq_nil_of_le (by simp)]
        rfl)⟩

/-- The rebuild keeps the number of company records. -/
theorem assignIds_length (vn ob : Nat) (cs : List (List (String × Value))) :
    (assignIds vn ob cs).length = cs.length := by
  induction cs generalizing vn ob with
  | nil => rfl
  | cons c rest ih =>
    by_cases h : isVN c = true <;> simp [assignIds, h, ih]

/-- Element-wise description of the id-assignment loop, for arbitrary
starting counters. -/
theorem assignIds_get (vn ob : Nat) (cs : List (List (String × Value))) (i : Nat)
    (h : i < cs.length) (h2 : i < (assignIds vn ob cs).length) :
    (assignIds vn ob cs).get ⟨i, h2⟩ =
      withId (if isVN (cs.get ⟨i, h⟩)
              then "COMVN" ++ pad2 (vn + (cs.take i).countP (fun x => isVN x))
              else "COMOB" ++ pad2 (ob + (cs.take i).countP (fun x => !(isVN x))))
        (cs.get ⟨i, h⟩) := by
  induction cs generalizing vn ob i with
  | nil => cases h
  | cons c rest ih =>
    cases i with
    | zero =>
      by_cases hc : isVN c = true
      · simp [assignIds, hc]
      · have hc' : isVN c = false := Bool.eq_false_iff.mpr hc
        simp [assignIds, hc']
    | succ i' =>
      have hr : i' < rest.length := Nat.lt_of_succ_lt_succ h
      have hget : (c :: rest).get ⟨i' + 1, h⟩ = rest.get ⟨i', hr⟩ := rfl
      by_cases hc : isVN c = true
      · have h2' : i' < (assignIds (vn + 1) ob rest).length := by
          rw [assignIds_length]; exact hr
        have hstep : (assignIds vn ob (c :: rest)).get ⟨i' + 1, h2⟩ =
            (assignIds (vn + 1) ob rest).get ⟨i', h2'⟩ := by
          simp [assignIds, hc]
        rw [hstep, ih (vn + 1) ob i' hr h2', hget, List.take_succ_cons]
        by_cases hd : isVN (rest.get ⟨i', hr⟩) = true
        · rw [if_pos hd, if_pos hd]
          have hcnt : List.countP (fun x => isVN x) (c :: List.take i' rest) =
              List.countP (fun x => isVN x) (List.take i' rest) + 1 := by
            rw [List.countP_cons]
            simp [hc]
          rw [hcnt]
          have harith : vn + 1 + List.countP (fun x => isVN x) (List.take i' rest) =
              vn + (List.countP (fun x => isVN x) (List.take i' rest) + 1) := by omega
          rw [harith]
        · rw [if_neg hd, if_neg hd]
          have hcnt : List.countP (fun x => !(isVN x)) (c :: List.take i' rest) =
              List.countP (fun x => !(isVN x)) (List.take i' rest) := by
            rw [List.countP_cons]
            simp [hc]
          rw [hcnt]
      · have hc' : isVN c = false := Bool.eq_false_iff.mpr hc
        have h2' : i' < (assignIds vn (ob + 1) rest).length := by
          rw [assignIds_length]; exact hr
        have hstep : (assignIds vn ob (c :: rest)).get ⟨i' + 1, h2⟩ =
            (assignIds vn (ob + 1) rest).get ⟨i', h2'⟩ := by
          simp [assignIds, hc']
        rw [hstep, ih vn (ob + 1) i' hr h2', hget, List.take_succ_cons]
        by_cases hd : isVN (rest.get ⟨i', hr⟩) = true
        · rw [if_pos hd, if_pos hd]
          have hcnt : List.countP (fun x => isVN x) (c :: List.take i' rest) =
              List.countP (fun x => isVN x) (List.take i' rest) := by
            rw [List.countP_cons]
            simp [hc']
          rw [hcnt]
        · rw [if_neg hd, if_neg hd]
          have hcnt : List.countP (fun x => !(isVN x)) (c :: List.take i' rest) =
              List.countP (fun x => !(isVN x)) (List.take i' rest) + 1 := by
            rw [List.countP_cons]
            simp [hc']
          rw [hcnt]
          have harith : ob + 1 + List.countP (fun x => !(isVN x)) (List.take i' rest) =
              ob + (List.countP (fun x => !(isVN x)) (List.take i' rest) + 1) := by omega
          rw [harith]

/-- Erasing an unrelated key does not change a lookup. -/
theorem lookupA_eraseKey_ne (k k' : String) (hne : ¬ k' = k)
    (l : List (String × Value)) :
    lookupA k (eraseKey k' l) = lookupA k l := by
  induction l with
  | nil => rfl
  | cons p rest ih =>
    obtain ⟨pk, pv⟩ := p
    by_cases hp : pk = k'
    · subst hp
      simp [eraseKey, lookupA, hne, ih]
    · by_cases hk : pk = k
      · subst hk
        simp [eraseKey, lookupA, hp]
      · simp [eraseKey, lookupA, hp, hk, ih]

/-- The per-record rebuild keeps every field other than the id. -/
theorem lookupA_withId_ne (cid : String) (k : String) (hne : ¬ k = "id")
    (c : List (String × Value)) :
    lookupA k (withId cid c) = lookupA k c := by
  have h1 : ¬ ("id" = k) := fun hh => hne hh.symm
  simp [withId, lookupA, h1, lookupA_eraseKey_ne k "id" h1 c]

/-- When the record had no id field, the rebuild stores the assigned id. -/
theorem lookupA_withId_id (cid : String) (c : List (String × Value))
    (h : lookupA "id" c = none) :
    lookupA "id" (withId cid c) = some (Value.vstr cid) := by
  simp [withId, lookupA, h]

/-- C8 amended: the company rebuild keeps the list length and order; the
record at position i becomes its original fields behind an id field placed
first, whose assigned value is "COMVN" or "COMOB" plus the zero-padded
per-partition counter (1 + number of same-partition records before it) —
except that a record already carrying an "id" field keeps its original id
value (dict.update overwrites the assigned one), while the counters advance
regardless.  All non-id fields are preserved, and a record without a prior
id field gets exactly the counter id. -/
theorem C8_amended_sequential_ids (cs : List (List (String × Value))) (i : Nat)
    (h : i < cs.length) (h2 : i < (companiesRebuild cs).length) :
    (companiesRebuild cs).length = cs.length ∧
    (companiesRebuild cs).get ⟨i, h2⟩ =
      withId (companyTag (cs.take i) (cs.get ⟨i, h⟩)) (cs.get ⟨i, h⟩) ∧
    (∀ k, ¬ k = "id" →
      lookupA k ((companiesRebuild cs).get ⟨i, h2⟩) = lookupA k (cs.get ⟨i, h⟩)) ∧
    (lookupA "id" (cs.get ⟨i, h⟩) = none →
      lookupA "id" ((companiesRebuild cs).get ⟨i, h2⟩) =
        some (Value.vstr (companyTag (cs.take i) (cs.get ⟨i, h⟩)))) := by
  have hmain : (companiesRebuild cs).get ⟨i, h2⟩ =
      withId (companyTag (cs.take i) (cs.get ⟨i, h⟩)) (cs.get ⟨i, h⟩) :=
    assignIds_get 1 1 cs i h h2
  refine ⟨assignIds_length 1 1 cs, hmain, ?_, ?_⟩
  · intro k hk
    rw [hmain, lookupA_withId_ne _ k hk]
  · intro hid
    rw [hmain, lookupA_withId_id _ _ hid]

/-- Witness for C8: on a three-record input the third record (second
Vietnamese one) gets id COMVN02 and keeps its other fields. -/
theorem C8_amended_sequential_ids_witness :
    (companiesRebuild c8Input).length = c8Input.length ∧
    (companiesRebuild c8Input).get ⟨2, by decide⟩ =
      withId (companyTag (c8Input.take 2) (c8Input.get ⟨2, by decide⟩))
        (c8Input.get ⟨2, by decide⟩) ∧
    lookupA "id" ((companiesRebuild c8Input).get ⟨2, by decide⟩) =
      some (Value.vstr (companyTag (c8Input.take 2) (c8Input.get ⟨2, by decide⟩))) :=
  ⟨(C8_amended_sequential_ids c8Input 2 (by decide) (by decide)).1,
   (C8_amended_sequential_ids c8Input 2 (by decide) (by decide)).2.1,
   (C8_amended_sequential_ids c8Input 2 (by decide) (by decide)).2.2.2 (by decide)⟩

/-- C8 counterexample: a company record that already carries an id field
keeps that id — the counter-based id "COMVN01" the claim promises is
overwritten by dict.update with the original value "X". -/
theorem C8_counterexample :
    companiesRebuild [[("id", Value.vstr "X"), ("country", Value.vstr "Vietnam")]] =
      [[("id", Value.vstr "X"), ("country", Value.vstr "Vietnam")]] ∧
    companyIdStr ((companiesRebuild
        [[("id", Value.vstr "X"), ("country", Value.vstr "Vietnam")]]).headD []) =
      some "X" ∧
    companyIdStr ((companiesRebuild
        [[("id", Value.vstr "X"), ("country", Value.vstr "Vietnam")]]).headD []) ≠
      some "COMVN01" := by
  refine ⟨rfl, ?_, ?_⟩ <;> decide

/-- Witness for C2 at concrete collections. -/
theorem C2_merge_idempotent_witness :
    mergeRecruitment (mergeRecruitment [] [("id", Value.vstr "9")]).1
        [("id", Value.vstr "9")] =
      ((mergeRecruitment [] [("id", Value.vstr "9")]).1, false) ∧
    insert_event (insert_event [] [("title", Value.vstr "E")]).1
        [("title", Value.vstr "E")] =
      ((insert_event [] [("title", Value.vstr "E")]).1, false) :=
  C2_merge_idempotent [] [("id", Value.vstr "9")] [] [("title", Value.vstr "E")]

/-- Witness for the amended C6 at concrete posts: the event record's nine
keys, the job record's three base keys, and the omission of the company and
apply fields on a message whose text matches neither pattern. -/
theorem C6_amended_fields_witness :
    (post_to_json "Title: X").map Prod.fst =
      ["title", "date", "location", "categories", "members", "logo",
       "background", "url", "description"] ∧
    ((parse_job_post none none none "Position: Y").map Prod.fst).take 3 =
      ["id", "created_time", "full_picture"] ∧
    ¬ "company" ∈ (parse_job_post none none none "Position: Y").map Prod.fst ∧
    ¬ "apply" ∈ (parse_job_post none none none "Position: Y").map Prod.fst :=
  ⟨(C6_amended_fields "Title: X" none none none "Position: Y").1,
   (C6_amended_fields "Title: X" none none none "Position: Y").2.1,
   (C6_amended_fields "Title: X" none none none "Position: Y").2.2.1
     ("company", searchCap false "Company:".data (remove_emojis "Position: Y".data))
     (List.mem_cons_self _ _) (by decide),
   (C6_amended_fields "Title: X" none none none "Position: Y").2.2.2.1
     ⟨by decide, by decide⟩⟩
